import Mathlib

set_option maxRecDepth 8192

/-!
Shallow embedding of `pi-gmc-300-logger.py`, a Python logger for a
GQ GMC-300 Geiger counter.  The program runs three periodic loops
(clock sync, battery-voltage poll, counts-per-minute poll) over one
shared serial channel guarded by a single `threading.Lock`, and appends
decoded readings to a CSV file.

Machine floats in the source (`b / 10.0`, `cpm * 0.0065`, `round(x, 2)`,
`f"{v:.2f}"`) are modelled over `ℚ`; every value the program actually
produces is an exact decimal for which the rational and IEEE-754 results
agree.
-/

namespace GMC

/-! ## Frame codec: counts-per-minute replies (`read_cpm_loop`, lines 119-139) -/

/-- Outcome of classifying one `<GETCPM>>` reply, mirroring the
`if response: / if len >= 2 / elif len == 1 / else` ladder. -/
inductive CpmOutcome where
  | reading (cpm : Nat)
  | markerByte
  | shortFrame (b : Nat)
  | noData
deriving DecidableEq, Repr

/-- `int.from_bytes(response[:2], big-endian) & 0x3FFF` together with
the surrounding length ladder of `read_cpm_loop`. -/
def classifyCpm : List Nat → CpmOutcome
  | b0 :: b1 :: _ => .reading (Nat.land (b0 * 256 + b1) 0x3FFF)
  | [b] => if b = 0xAA then .markerByte else .shortFrame b
  | [] => .noData

/-- `response = ser.read(2); if len(response) < 2: response += ser.read(1)`:
the bytes handed to classification, given what each of the two reads
returned. -/
def cpmResponse (first extra : List Nat) : List Nat :=
  if first.length < 2 then first ++ extra else first

/-- Bytes consumed from the channel in one CPM cycle: the initial
2-byte read always runs; the extra 1-byte read runs only on a short
first read. -/
def cpmBytesConsumed (first extra : List Nat) : Nat :=
  first.length + (if first.length < 2 then extra.length else 0)

/-! ## Frame codec: battery replies (`read_battery_voltage_loop`, lines 94-109) -/

/-- `voltage = response[0] / 10.0` (line 96). -/
def decodeBattery (b : Nat) : ℚ := (b : ℚ) / 10

/-- The acceptance test of line 98: the sample is kept unless
`voltage > 5.0`. -/
def batteryInRange (b : Nat) : Bool := !(decide (decodeBattery b > 5))

/-- One iteration of `read_battery_voltage_loop` as a transition on the
global `last_batt_voltage`.  `none` is the `except` branch (line 109);
a reply of length ≠ 1 is the incomplete-data branch (line 106); an
out-of-range byte is line 100.  Every failure branch assigns `0.0`. -/
def battery_loop_step (prev : ℚ) (reply : Option (List Nat)) : ℚ :=
  match reply with
  | none => 0
  | some r =>
    match r with
    | [b] => if decodeBattery b > 5 then 0 else decodeBattery b
    | _ => 0

/-! ## Dose-rate conversion and record building -/

/-- `convert_cpm_to_usvh` (line 13): `cpm * 0.0065`; the literal is the
rational 13/2000. -/
def convert_cpm_to_usvh (cpm : Nat) : ℚ := (cpm : ℚ) * (13 / 2000)

/-- Python `round(q, 2)` / `f"{v:.2f}"` rounding: round half to even at
the second decimal, here on the scaled value. -/
def roundHalfEven (q : ℚ) : ℤ :=
  let f := ⌊q⌋
  let r := q - f
  if r < 1 / 2 then f
  else if 1 / 2 < r then f + 1
  else if f % 2 = 0 then f else f + 1

/-- `round(usvh, 2)` (line 132). -/
def roundTo2 (q : ℚ) : ℚ := (roundHalfEven (q * 100) : ℚ) / 100

/-- `batt_str = f"{batt_voltage:.2f}"` (line 36) for the nonnegative
voltages the program produces. -/
def format2 (q : ℚ) : String :=
  let n := (roundHalfEven (q * 100)).toNat
  toString (n / 100) ++ "." ++
    (if n % 100 < 10 then "0" ++ toString (n % 100) else toString (n % 100))

/-- One CSV data row as assembled by `read_cpm_loop` lines 128-132 and
written by `log_data` (timestamp, GPS, serial and version fields carry
no logic and are omitted). -/
structure RecordRow where
  cpm : Nat
  usvh : ℚ
  batt : String
deriving DecidableEq, Repr

/-- One iteration of `read_cpm_loop` (lines 115-139): classify the
assembled reply; a ≥ 2-byte reply emits a row using the current shared
battery value, anything shorter emits nothing. -/
def cpm_loop_step (battV : ℚ) (first extra : List Nat) : Option RecordRow :=
  match classifyCpm (cpmResponse first extra) with
  | .reading c => some ⟨c, roundTo2 (convert_cpm_to_usvh c), format2 battV⟩
  | _ => none

/-! ## Interleaved execution of the two polling loops -/

/-- One scheduled cycle of either polling loop, carrying the bytes the
channel returned to it. -/
inductive Cycle where
  | battery (reply : Option (List Nat))
  | count (first extra : List Nat)

/-- `last_batt_voltage` after a list of cycles, starting from the
module-level initialiser `0.0` (line 21); only battery cycles write it. -/
def battStateFrom (s : ℚ) : List Cycle → ℚ
  | [] => s
  | .battery r :: rest => battStateFrom (battery_loop_step s r) rest
  | .count _ _ :: rest => battStateFrom s rest

/-- `last_batt_voltage` after a list of cycles from program start. -/
def battState (cs : List Cycle) : ℚ := battStateFrom 0 cs

/-- The rows appended to the CSV by a list of cycles, threading the
shared battery cell. -/
def runFrom (s : ℚ) : List Cycle → List RecordRow
  | [] => []
  | .battery r :: rest => runFrom (battery_loop_step s r) rest
  | .count f e :: rest => (cpm_loop_step s f e).toList ++ runFrom s rest

/-- The rows appended to the CSV from program start. -/
def runTrace (cs : List Cycle) : List RecordRow := runFrom 0 cs

/-! ## CSV initialisation (`initialize_csv`, lines 23-30) -/

/-- Header row of line 28. -/
def csvHeader : List String :=
  ["Timestamp", "CPM", "uSv/h", "Battery Voltage", "GPS", "Device Serial",
   "Device Version"]

/-- `open(filename, 'x')` writes the header only when the file does not
exist; `FileExistsError` is swallowed (lines 24-30).  The file is
modelled as `none` (absent) or `some rows`. -/
def initialize_csv : Option (List (List String)) → Option (List (List String))
  | none => some [csvHeader]
  | some rows => some rows

/-! ## Clock-set command (`set_device_datetime`, lines 68-79) -/

/-- One uppercase hexadecimal digit, as produced by Python `%X`. -/
def hexDigit (n : Nat) : Char :=
  if n < 10 then Char.ofNat (48 + n) else Char.ofNat (55 + n)

/-- Python `f"{n:02X}"` for `n < 256`: exactly two uppercase hex
digits. -/
def toHex2 (n : Nat) : String := String.mk [hexDigit (n / 16), hexDigit (n % 16)]

/-- `cmd = f"<SETDATETIME{YY}{MM}{DD}{hh}{mm}{ss}>>"` with
`YY = f"{now.year % 100:02X}"` and so on (lines 70-76). -/
def set_device_datetime_cmd (year month day hour minute second : Nat) : String :=
  "<SETDATETIME" ++ toHex2 (year % 100) ++ toHex2 month ++ toHex2 day ++
    toHex2 hour ++ toHex2 minute ++ toHex2 second ++ ">>"

/-- Recogniser for an uppercase hexadecimal digit character. -/
def isUpperHexDigit (c : Char) : Bool :=
  (decide (('0' : Char) ≤ c) && decide (c ≤ ('9' : Char))) ||
  (decide (('A' : Char) ≤ c) && decide (c ≤ ('F' : Char)))

/-! ## Lock coverage of the serial exchanges (lines 90-94 and 115-122) -/

/-- A primitive action against the serial channel or the clock. -/
inductive SerialAction where
  | resetInput
  | write (cmd : String)
  | settle (ms : Nat)
  | read (n : Nat)
deriving DecidableEq, Repr

/-- An action together with whether it executes while `serial_lock` is
held. -/
structure ChannelEvent where
  action : SerialAction
  lockHeld : Bool
deriving DecidableEq, Repr

/-- The battery exchange, straight from lines 90-94:
`reset_input_buffer()` before the lock, `with serial_lock: write`,
then `time.sleep(0.5)` and `read(1)` after the `with` block ends. -/
def batteryExchangeEvents : List ChannelEvent :=
  [⟨.resetInput, false⟩, ⟨.write "<GETVOLT>>", true⟩,
   ⟨.settle 500, false⟩, ⟨.read 1, false⟩]

/-- The CPM exchange, straight from lines 115-122: only the write sits
inside `with serial_lock`; the 2-second settle and both reads follow
outside it. -/
def cpmExchangeEvents : List ChannelEvent :=
  [⟨.resetInput, false⟩, ⟨.write "<GETCPM>>", true⟩,
   ⟨.settle 2000, false⟩, ⟨.read 2, false⟩, ⟨.read 1, false⟩]

/-- Actions forming the write-settle-read body of an exchange. -/
def isExchangeCore : SerialAction → Bool
  | .write _ => true
  | .settle _ => true
  | .read _ => true
  | .resetInput => false

/-- Is the action a command write? -/
def isWrite : SerialAction → Bool
  | .write _ => true
  | _ => false

/-- The exchange is one atomic region: every write, settle and read of
the trace runs with the lock held. -/
def exchangeAtomic (t : List ChannelEvent) : Bool :=
  t.all fun e => !isExchangeCore e.action || e.lockHeld

/-! ## Helper lemmas -/

/-- The validity test of line 98 on the raw byte: `b / 10.0 > 5.0` holds
exactly when the byte exceeds 50. -/
lemma decodeBattery_gt_five_iff (b : Nat) : decodeBattery b > 5 ↔ 50 < b := by
  unfold decodeBattery
  rw [gt_iff_lt, lt_div_iff (by norm_num : (0 : ℚ) < 10)]
  rw [show (5 : ℚ) * 10 = ((50 : ℕ) : ℚ) by norm_num, Nat.cast_lt]

lemma battStateFrom_append (s : ℚ) (xs ys : List Cycle) :
    battStateFrom s (xs ++ ys) = battStateFrom (battStateFrom s xs) ys := by
  induction xs generalizing s with
  | nil => rfl
  | cons c rest ih => cases c <;> simp [battStateFrom, ih]

lemma runFrom_append (s : ℚ) (xs ys : List Cycle) :
    runFrom s (xs ++ ys) = runFrom s xs ++ runFrom (battStateFrom s xs) ys := by
  induction xs generalizing s with
  | nil => rfl
  | cons c rest ih =>
    cases c with
    | battery r => simp [runFrom, battStateFrom, ih]
    | count f e => simp [runFrom, battStateFrom, ih]

/-- Inversion for a CPM cycle that produced a row: the reply classified
as a reading and the row carries that count, the rounded dose and the
formatted shared battery value. -/
lemma cpm_loop_step_eq_some {s : ℚ} {f e : List Nat} {r : RecordRow}
    (h : cpm_loop_step s f e = some r) :
    ∃ c, classifyCpm (cpmResponse f e) = CpmOutcome.reading c
      ∧ r = ⟨c, roundTo2 (convert_cpm_to_usvh c), format2 s⟩ := by
  unfold cpm_loop_step at h
  cases hcl : classifyCpm (cpmResponse f e) with
  | reading c =>
    rw [hcl] at h
    have h2 : some (⟨c, roundTo2 (convert_cpm_to_usvh c), format2 s⟩ : RecordRow) = some r := h
    exact ⟨c, rfl, (Option.some.inj h2).symm⟩
  | markerByte => rw [hcl] at h; simp at h
  | shortFrame b => rw [hcl] at h; simp at h
  | noData => rw [hcl] at h; simp at h

/-- Concrete evaluation of one CPM cycle: reply bytes 0x00 0x64 with the
battery cell at its initial value produce the row (100, 0.65, "0.00"). -/
lemma cpm_loop_step_zero_eval :
    cpm_loop_step 0 [0, 100] [] = some ⟨100, 13 / 20, "0.00"⟩ := by
  unfold cpm_loop_step
  rw [show classifyCpm (cpmResponse [0, 100] []) = CpmOutcome.reading 100 by decide]
  show some (⟨100, roundTo2 (convert_cpm_to_usvh 100), format2 0⟩ : RecordRow)
    = some ⟨100, 13 / 20, "0.00"⟩
  rw [show roundTo2 (convert_cpm_to_usvh 100) = 13 / 20 by
        norm_num [roundTo2, roundHalfEven, convert_cpm_to_usvh]]
  rw [show format2 0 = "0.00" by norm_num [format2, roundHalfEven]; decide]

/-- `f"{n:02X}"` for a byte: two characters, both uppercase hex digits. -/
lemma toHex2_spec : ∀ n, n < 256 → (toHex2 n).length = 2
    ∧ ∀ c ∈ (toHex2 n).data, isUpperHexDigit c = true := by
  decide

/-- A reply that stays shorter than 2 bytes after the extra read never
produces a row. -/
lemma cpm_loop_step_eq_none (s : ℚ) (f e : List Nat)
    (h : (cpmResponse f e).length < 2) : cpm_loop_step s f e = none := by
  unfold cpm_loop_step
  cases hr : cpmResponse f e with
  | nil => rfl
  | cons a t =>
    cases t with
    | nil => by_cases ha : a = 0xAA <;> simp [classifyCpm, ha]
    | cons b t2 =>
      rw [hr] at h
      simp only [List.length_cons] at h
      omega

/-! ## Claim theorems -/

/-- C1 counterexample: the claim states that each battery or CPM
exchange holds the serial lock across write, settle delay and read as
one atomic region.  In the code the `with serial_lock` block closes
right after the write (lines 91-92 and 116-117): the settle sleep and
the reads run unlocked, so neither sampling exchange is atomic and in
particular the read of each exchange executes without the lock. -/
theorem serial_exchange_not_atomic :
    exchangeAtomic batteryExchangeEvents = false
    ∧ exchangeAtomic cpmExchangeEvents = false
    ∧ (⟨SerialAction.read 1, false⟩ : ChannelEvent) ∈ batteryExchangeEvents
    ∧ (⟨SerialAction.read 2, false⟩ : ChannelEvent) ∈ cpmExchangeEvents := by
  decide

/-- C1 (amended): the mutual-exclusion region covers exactly the
command write of each sampling exchange; the input-buffer reset, the
settle delay and the reads all execute with the lock released, so
another task can write during an exchange processing window. -/
theorem serial_lock_covers_writes_only :
    (batteryExchangeEvents.all fun e => e.lockHeld == isWrite e.action) = true
    ∧ (cpmExchangeEvents.all fun e => e.lockHeld == isWrite e.action) = true := by
  decide

/-- C2: a CPM reply of at least two bytes decodes to its first two
bytes read big-endian and masked with 0x3FFF, which equals reduction
mod 2^14 and hence lies in [0, 16383]; bytes after the first two are
ignored by the classification. -/
theorem decodeCount_masks_big_endian (b0 b1 : Nat) (rest rest2 : List Nat) :
    classifyCpm (b0 :: b1 :: rest)
      = CpmOutcome.reading (Nat.land (b0 * 256 + b1) 0x3FFF)
    ∧ Nat.land (b0 * 256 + b1) 0x3FFF = (b0 * 256 + b1) % 16384
    ∧ Nat.land (b0 * 256 + b1) 0x3FFF ≤ 16383
    ∧ classifyCpm (b0 :: b1 :: rest) = classifyCpm (b0 :: b1 :: rest2) := by
  refine ⟨rfl, ?_, Nat.and_le_right, rfl⟩
  have h := Nat.and_pow_two_sub_one_eq_mod (b0 * 256 + b1) 14
  norm_num at h
  exact h

/-- C8: a CPM reply still shorter than two bytes after the extra
one-byte read never produces a row; a lone 0xAA byte classifies as the
keep-alive marker, any other single byte as an unexpected short frame,
and an empty reply as no-data — each a value of `CpmOutcome`, none a
crash. -/
theorem short_cpm_reply_yields_no_record (first extra : List Nat)
    (h : (cpmResponse first extra).length < 2) :
    (∀ s, cpm_loop_step s first extra = none)
    ∧ (cpmResponse first extra = [0xAA] →
        classifyCpm (cpmResponse first extra) = CpmOutcome.markerByte)
    ∧ (∀ b, cpmResponse first extra = [b] → b ≠ 0xAA →
        classifyCpm (cpmResponse first extra) = CpmOutcome.shortFrame b)
    ∧ (cpmResponse first extra = [] →
        classifyCpm (cpmResponse first extra) = CpmOutcome.noData) := by
  refine ⟨fun s => cpm_loop_step_eq_none s first extra h, ?_, ?_, ?_⟩
  · intro hm; rw [hm]; rfl
  · intro b hb hne; rw [hb]; simp [classifyCpm, hne]
  · intro h0; rw [h0]; rfl

/-- C8 witness: a lone marker byte produces no row and classifies as
the keep-alive marker. -/
theorem short_cpm_reply_yields_no_record_witness :
    cpm_loop_step 0 [0xAA] [] = none
    ∧ classifyCpm (cpmResponse [0xAA] []) = CpmOutcome.markerByte :=
  ⟨(short_cpm_reply_yields_no_record [0xAA] [] (by decide)).1 0,
   (short_cpm_reply_yields_no_record [0xAA] [] (by decide)).2.1 (by decide)⟩

/-- C9: CSV initialisation is idempotent; the header row is written
exactly once, only when the file is absent, and an existing file is
returned unchanged — nothing is rewritten, duplicated or truncated. -/
theorem initialize_csv_idempotent :
    (∀ f, initialize_csv (initialize_csv f) = initialize_csv f)
    ∧ initialize_csv none = some [csvHeader]
    ∧ (∀ rows, initialize_csv (some rows) = some rows) :=
  ⟨fun f => by cases f <;> rfl, rfl, fun rows => rfl⟩

/-- C10: after a short initial 2-byte read the loop appends the result
of exactly one extra 1-byte read before classifying; a 2-byte frame
split across the two reads is still decoded as a count reading, and at
most 3 bytes are consumed per cycle. -/
theorem split_cpm_frame_recovered (first extra : List Nat)
    (h1 : first.length ≤ 2) (h2 : extra.length ≤ 1) :
    (first.length < 2 → cpmResponse first extra = first ++ extra)
    ∧ (2 ≤ first.length → cpmResponse first extra = first)
    ∧ (∀ b0 b1, first = [b0] → extra = [b1] →
        classifyCpm (cpmResponse first extra)
          = CpmOutcome.reading (Nat.land (b0 * 256 + b1) 0x3FFF))
    ∧ cpmBytesConsumed first extra ≤ 3 := by
  refine ⟨?_, ?_, ?_, ?_⟩
  · intro hlt; unfold cpmResponse; rw [if_pos hlt]
  · intro hge; unfold cpmResponse; rw [if_neg (by omega)]
  · intro b0 b1 hf he; subst hf; subst he; rfl
  · unfold cpmBytesConsumed; split <;> omega

/-- C10 witness: the frame 0x00 0x64 split across the two reads still
decodes as a count reading. -/
theorem split_cpm_frame_recovered_witness :
    classifyCpm (cpmResponse [0] [100])
      = CpmOutcome.reading (Nat.land (0 * 256 + 100) 0x3FFF) :=
  (split_cpm_frame_recovered [0] [100] (by decide) (by decide)).2.2.1 0 100 rfl rfl

/-- C3 counterexample: a count poll before any battery sample emits a
row whose battery field is the numeric string "0.00" — the default 0.0
formatted by `log_data` — not an "unknown" placeholder. -/
theorem first_record_battery_is_numeric_zero :
    runTrace [Cycle.count [0, 100] []] = [⟨100, 13 / 20, "0.00"⟩]
    ∧ ("0.00" : String) ≠ "unknown" := by
  constructor
  · show (cpm_loop_step 0 [0, 100] []).toList ++ runFrom 0 [] = _
    rw [cpm_loop_step_zero_eval]
    rfl
  · decide

/-- C3 (amended): every emitted row carries the formatted current value
of the shared battery cell at the time of the count poll — the most
recent sample when that sample was valid, and the numeric default 0.0
(rendered "0.00") when no sample was ever captured or the last attempt
failed or was out of range; never an "unknown" placeholder. -/
theorem record_battery_field_is_cached_cell (cs : List Cycle) (f e : List Nat) :
    runTrace (cs ++ [Cycle.count f e])
      = runTrace cs ++ (cpm_loop_step (battState cs) f e).toList
    ∧ (∀ r, cpm_loop_step (battState cs) f e = some r →
        r.batt = format2 (battState cs))
    ∧ (∀ cs0 b, b ≤ 50 →
        battState (cs0 ++ [Cycle.battery (some [b])]) = decodeBattery b) := by
  refine ⟨?_, ?_, ?_⟩
  · unfold runTrace battState
    rw [runFrom_append]
    simp [runFrom]
  · intro r hr
    obtain ⟨c, _, hrec⟩ := cpm_loop_step_eq_some hr
    rw [hrec]
  · intro cs0 b hb
    unfold battState
    rw [battStateFrom_append]
    show battery_loop_step (battStateFrom 0 cs0) (some [b]) = decodeBattery b
    show (if decodeBattery b > 5 then 0 else decodeBattery b) = decodeBattery b
    rw [if_neg (by rw [decodeBattery_gt_five_iff]; omega)]

/-- C3 witness: after a valid 3.3 V sample, the next count poll emits a
row whose battery field is that sample formatted, and a preceding valid
sample is what the cell holds. -/
theorem record_battery_field_is_cached_cell_witness :
    33 ≤ 50
    ∧ battState ([] ++ [Cycle.battery (some [33])]) = decodeBattery 33 :=
  ⟨by norm_num,
   (record_battery_field_is_cached_cell [] [0, 100] []).2.2 [] 33 (by norm_num)⟩

/-- C4 counterexample: a failed battery sample (empty reply) does not
leave the cached value unchanged — from a cached 3.3 V it resets the
cell to 0.0. -/
theorem failed_battery_sample_clears_cache :
    battery_loop_step (33 / 10) (some []) = 0
    ∧ battery_loop_step (33 / 10) none = 0
    ∧ ((33 : ℚ) / 10) ≠ 0 := by
  refine ⟨rfl, rfl, by norm_num⟩

/-- C4 (amended): every battery-sample attempt overwrites the shared
cell: a successful in-range sample stores its decoded voltage, while a
short read, an out-of-range byte, or a channel error resets the cell to
0.0 rather than preserving the previous value. -/
theorem battery_attempt_overwrites_cache (prev : ℚ) :
    battery_loop_step prev none = 0
    ∧ (∀ r : List Nat, r.length ≠ 1 → battery_loop_step prev (some r) = 0)
    ∧ (∀ b, 50 < b → battery_loop_step prev (some [b]) = 0)
    ∧ (∀ b, b ≤ 50 → battery_loop_step prev (some [b]) = decodeBattery b) := by
  refine ⟨rfl, ?_, ?_, ?_⟩
  · intro r hr
    match r with
    | [] => rfl
    | [b] => exact absurd rfl hr
    | a :: b :: t => rfl
  · intro b hb
    show (if decodeBattery b > 5 then 0 else decodeBattery b) = 0
    rw [if_pos ((decodeBattery_gt_five_iff b).mpr hb)]
  · intro b hb
    show (if decodeBattery b > 5 then 0 else decodeBattery b) = decodeBattery b
    rw [if_neg (by rw [decodeBattery_gt_five_iff]; omega)]

/-- C4 witness: from a cached 3.3 V, a 2-byte reply resets the cell to
0.0 and a valid byte 33 stores 3.3 V. -/
theorem battery_attempt_overwrites_cache_witness :
    battery_loop_step (33 / 10) (some [1, 2]) = 0
    ∧ battery_loop_step (33 / 10) (some [33]) = decodeBattery 33 :=
  ⟨(battery_attempt_overwrites_cache (33 / 10)).2.1 [1, 2] (by decide),
   (battery_attempt_overwrites_cache (33 / 10)).2.2.2 33 (by norm_num)⟩

/-- C5: a battery reply byte decodes to b/10; the sample is kept
exactly when the byte is at most 50 (voltage at most 5.0), and bytes
51-255 are rejected as out of range, storing 0.0 — no valid sample. -/
theorem decodeBattery_acceptance (b : Nat) (hb : b ≤ 255) :
    decodeBattery b = (b : ℚ) / 10
    ∧ (batteryInRange b = true ↔ b ≤ 50)
    ∧ (b ≤ 50 → ∀ prev, battery_loop_step prev (some [b]) = decodeBattery b)
    ∧ (51 ≤ b → ∀ prev, battery_loop_step prev (some [b]) = 0) := by
  refine ⟨rfl, ?_, ?_, ?_⟩
  · simp only [batteryInRange, Bool.not_eq_eq_eq_not, Bool.not_true,
      decide_eq_false_iff_not, decodeBattery_gt_five_iff]
    omega
  · intro hle prev
    show (if decodeBattery b > 5 then 0 else decodeBattery b) = decodeBattery b
    rw [if_neg (by rw [decodeBattery_gt_five_iff]; omega)]
  · intro hge prev
    show (if decodeBattery b > 5 then 0 else decodeBattery b) = 0
    rw [if_pos ((decodeBattery_gt_five_iff b).mpr (by omega))]

/-- C5 witness: byte 33 decodes to 3.3 V and is accepted; byte 51 is
rejected and stores 0.0. -/
theorem decodeBattery_acceptance_witness :
    decodeBattery 33 = (33 : ℚ) / 10
    ∧ batteryInRange 51 ≠ true
    ∧ battery_loop_step 0 (some [51]) = 0 := by
  refine ⟨(decodeBattery_acceptance 33 (by norm_num)).1, ?_, ?_⟩
  · intro hcontra
    have h51 := ((decodeBattery_acceptance 51 (by norm_num)).2.1).mp hcontra
    omega
  · exact (decodeBattery_acceptance 51 (by norm_num)).2.2.2 (by norm_num) 0

/-- C6: the dose field of every emitted row equals the rounded product
of the counts-per-minute value with 0.0065 (= 13/2000); concretely
cpm 100 gives 0.65, cpm 1000 gives 6.5, and cpm 0 gives 0.0. -/
theorem dose_rate_rounded (s : ℚ) (f e : List Nat) (r : RecordRow) :
    (cpm_loop_step s f e = some r → r.usvh = roundTo2 (convert_cpm_to_usvh r.cpm))
    ∧ roundTo2 (convert_cpm_to_usvh 100) = 13 / 20
    ∧ roundTo2 (convert_cpm_to_usvh 1000) = 13 / 2
    ∧ roundTo2 (convert_cpm_to_usvh 0) = 0 := by
  refine ⟨?_, ?_, ?_, ?_⟩
  · intro hr
    obtain ⟨c, _, hrec⟩ := cpm_loop_step_eq_some hr
    rw [hrec]
  · norm_num [roundTo2, roundHalfEven, convert_cpm_to_usvh]
  · norm_num [roundTo2, roundHalfEven, convert_cpm_to_usvh]
  · norm_num [roundTo2, roundHalfEven, convert_cpm_to_usvh]

/-- C6 witness: the row emitted for reply 0x00 0x64 carries the dose
0.65 computed by the rounded conversion at its cpm 100. -/
theorem dose_rate_rounded_witness :
    (⟨100, 13 / 20, "0.00"⟩ : RecordRow).usvh
      = roundTo2 (convert_cpm_to_usvh (⟨100, 13 / 20, "0.00"⟩ : RecordRow).cpm) :=
  (dose_rate_rounded 0 [0, 100] [] ⟨100, 13 / 20, "0.00"⟩).1 cpm_loop_step_zero_eval

/-- C7: the clock-set command is "<SETDATETIME" followed by the six
fields year mod 100, month, day, hour, minute, second — each exactly
two uppercase hexadecimal digits, no separators — then ">>"; for
2024-03-05 14:07:09 the fields encode as 18 03 05 0E 07 09. -/
theorem setdatetime_command_format (y mo d h mi s : Nat)
    (hmo : mo < 256) (hd : d < 256) (hh : h < 256)
    (hmi : mi < 256) (hs : s < 256) :
    set_device_datetime_cmd y mo d h mi s =
      "<SETDATETIME" ++ toHex2 (y % 100) ++ toHex2 mo ++ toHex2 d ++
        toHex2 h ++ toHex2 mi ++ toHex2 s ++ ">>"
    ∧ (∀ t ∈ [y % 100, mo, d, h, mi, s], (toHex2 t).length = 2
        ∧ ∀ c ∈ (toHex2 t).data, isUpperHexDigit c = true)
    ∧ set_device_datetime_cmd 2024 3 5 14 7 9 = "<SETDATETIME1803050E0709>>" := by
  refine ⟨rfl, ?_, by decide⟩
  intro t ht
  have htlt : t < 256 := by
    simp only [List.mem_cons, List.mem_singleton, List.not_mem_nil, or_false] at ht
    have hy : y % 100 < 100 := Nat.mod_lt _ (by norm_num)
    rcases ht with h1 | h1 | h1 | h1 | h1 | h1 <;> subst h1 <;> omega
  exact toHex2_spec t htlt

/-- C7 witness: the command for 2024-03-05 14:07:09. -/
theorem setdatetime_command_format_witness :
    set_device_datetime_cmd 2024 3 5 14 7 9 = "<SETDATETIME1803050E0709>>" :=
  (setdatetime_command_format 2024 3 5 14 7 9 (by norm_num) (by norm_num)
    (by norm_num) (by norm_num) (by norm_num)).2.2

end GMC
